import Mathlib

/-!
# imagepool: the request handler of `server/handler.go`

A shallow embedding of `MainHandler` (`ServeHTTP`, `ServeHead`, `ServeGet`,
`ServeDefault`) and of the parts of its collaborators that the handler
observes, followed by theorems about the handler.

Conventions of the embedding

* A Go `string` is a sequence of bytes: `GoString := List UInt8`.  The slice
  expression `s[1:]` drops one byte and panics on the empty string; a panic
  is the value `none`.
* The collaborators (the redis client, the qiniu bucket manager, the clock,
  the signer) are not part of the repository.  Their observable behaviour is
  collected in a `World`, which the handler reads and updates; every call
  made to the cache or to the storage client is appended to `World.calls`,
  every line printed to `World.log`.
* The response writer is a record of what the handler asked it to send.
-/

namespace Imagepool

/-! ## Strings -/

/-- A Go string: a finite sequence of bytes. -/
abbrev GoString := List UInt8

/-- The bytes of a source literal (all literals of the handler are ASCII). -/
def ascii (s : String) : GoString := s.toList.map (fun c => UInt8.ofNat c.toNat)

/-- The Go slice expression `s[i:]`; slicing beyond the length is a run-time
panic, modelled by `none`. -/
def sliceFrom (s : GoString) (i : Nat) : Option GoString :=
  if i ≤ s.length then some (s.drop i) else none

/-- What `fmt.Sprintf("%v", n)` prints for an `int64`: the decimal digits,
with a leading minus sign for a negative number. -/
def sprintInt (n : Int) : GoString :=
  match n with
  | Int.ofNat m => ascii (String.mk (Nat.toDigits 10 m))
  | Int.negSucc m => ascii "-" ++ ascii (String.mk (Nat.toDigits 10 (m + 1)))

/-! ## Time

The part of Go's `time` package used by `ServeGet`: a `Time` is an instant
(seconds since the Unix epoch; sub-second precision plays no role in the
handler) together with a `Location`.  A `Location` is a table of offset
changes, as in the zoneinfo database. -/

/-- A time zone: the offset (seconds east of UTC) in force before the first
change, and the list of changes `(instant, offset from then on)` in increasing
order of instant. -/
structure Location where
  zone0 : Int
  tx : List (Int × Int)
deriving DecidableEq

/-- The beginning of time for `Location.lookup` (Go's `alpha`). -/
def alpha : Int := -(2 ^ 63)

/-- The end of time for `Location.lookup` (Go's `omega`). -/
def omega : Int := 2 ^ 63 - 1

/-- Scan of the change table: `off` has been in force since `start`. -/
def lookupFrom (off start : Int) : List (Int × Int) → Int → Int × Int × Int
  | [], _ => (off, start, omega)
  | (t, o) :: rest, sec => if sec < t then (off, start, t) else lookupFrom o t rest sec

/-- The zone in force at the instant `sec`, as `(offset, start, end)`: Go's
`(*Location).lookup`. -/
def Location.lookup (l : Location) (sec : Int) : Int × Int × Int :=
  lookupFrom l.zone0 alpha l.tx sec

/-- The change table of a location is in increasing order of instant, as the
zoneinfo files are. -/
def Location.ordered (l : Location) : Prop := l.tx.Pairwise (fun a b => a.1 ≤ b.1)

/-- A location with one offset for all time (`time.UTC`, `time.FixedZone`). -/
def fixedZone (offset : Int) : Location := ⟨offset, []⟩

/-- An instant with its location. -/
structure Time where
  sec : Int
  loc : Location
deriving DecidableEq

/-- The method `Unix`: seconds since January 1, 1970 UTC. -/
def Time.Unix (t : Time) : Int := t.sec

/-- The method `Location`. -/
def Time.Location (t : Time) : Location := t.loc

/-- The wall-clock reading of `t` in its location, in seconds since
1970-01-01 00:00:00 of that wall clock. -/
def Time.wall (t : Time) : Int := t.sec + (t.loc.lookup t.sec).1

/-- The civil date (proleptic Gregorian calendar) of the day that starts
`z` days after 1970-01-01, as `(year, month, day)`.  Days are counted from
March 1 of year 0 and split into cycles of 400 years, 100 years, 4 years and
1 year; the last century of a 400-year cycle and the last year of a 4-year
cycle are one day longer, hence the caps at 3. -/
def civilFromDays (z : Int) : Int × Int × Int :=
  let z1 := z + 719468
  let n400 := z1 / 146097
  let r400 := z1 % 146097
  let n100 := min (r400 / 36524) 3
  let r100 := r400 - 36524 * n100
  let n4 := r100 / 1461
  let r4 := r100 % 1461
  let n1 := min (r4 / 365) 3
  let doy := r4 - 365 * n1
  let y := 400 * n400 + 100 * n100 + 4 * n4 + n1
  let mp := (5 * doy + 2) / 153
  let d := doy - (153 * mp + 2) / 5 + 1
  let m := if mp < 10 then mp + 3 else mp - 9
  (if m ≤ 2 then y + 1 else y, m, d)

/-- The number of days from 1970-01-01 to the civil date `y-m-d`, for a month
in 1..12; the day is counted linearly, so a day beyond the end of the month
runs into the next one. -/
def daysFromCivil (y m d : Int) : Int :=
  let y1 := if m ≤ 2 then y - 1 else y
  let era := y1 / 400
  let yoe := y1 - era * 400
  let mp := if m > 2 then m - 3 else m + 9
  let doy := (153 * mp + 2) / 5 + d - 1
  let doe := yoe * 365 + yoe / 4 - yoe / 100 + doy
  era * 146097 + doe - 719468

/-- The method `Year`. -/
def Time.Year (t : Time) : Int := (civilFromDays (t.wall / 86400)).1

/-- The method `Month` (January is 1). -/
def Time.Month (t : Time) : Int := (civilFromDays (t.wall / 86400)).2.1

/-- The method `Day`. -/
def Time.Day (t : Time) : Int := (civilFromDays (t.wall / 86400)).2.2

/-- The function `time.Date`: the instant at which the wall clock of `loc`
shows the given date and time.  Months outside 1..12 are normalised into the
year first.  The offset is found as Go does it: look up the wall-clock
reading as if it were UTC, and look up again if the corrected instant falls
outside the zone that was found. -/
def Date (year month day hour min sec _nsec : Int) (loc : Location) : Time :=
  let y := year + (month - 1) / 12
  let m := (month - 1) % 12 + 1
  let unix := daysFromCivil y m day * 86400 + hour * 3600 + min * 60 + sec
  let (offset, start, stop) := loc.lookup unix
  if offset ≠ 0 then
    let utc := unix - offset
    let offset2 := if utc < start ∨ utc ≥ stop then (loc.lookup utc).1 else offset
    ⟨unix - offset2, loc⟩
  else
    ⟨unix, loc⟩

/-! ## Collaborators

The redis client (`gopkg.in/redis.v3`), the bucket manager and the signer
(`github.com/qiniu/api.v7`), the clock and the process log. -/

/-- An error value of the redis client: the sentinel `redis.Nil` ("the key
does not exist") or any other error, known by its message. -/
inductive RedisError where
  | Nil
  | other (msg : GoString)
deriving DecidableEq

/-- The method `Error` of an error value. -/
def RedisError.Error : RedisError → GoString
  | RedisError.Nil => ascii "redis: nil"
  | RedisError.other msg => msg

/-- The `storage.FileInfo` returned by `Stat`; the handler reads `Fsize`
(an `int64`) only. -/
structure FileInfo where
  Fsize : Int
deriving DecidableEq

/-- A call made to the cache or to the storage client. -/
inductive Call where
  | Get (key : GoString)
  | Set (key value : GoString) (expiration : Int)
  | Stat (bucket key : GoString)
  | MakePrivateURL (domain key : GoString) (deadline : Int)
deriving DecidableEq

/-- A line written with `log.Printf`: the error line of `ServeHead`, or the
access line of `ServeHTTP` (client address, method, status, request-target;
the elapsed time printed between them is not modelled). -/
inductive LogLine where
  | error (msg : GoString)
  | access (ip method : GoString) (status : Option Nat) (uri : GoString)
deriving DecidableEq

/-- Everything outside the handler.

* `store` is the content of the cache; `getFault` and `setFault` say for
  which keys the cache answers with a failure instead.
* `statResult` is the answer of the storage backend to `Stat`.
* `signedURL` is the function computed by `storage.MakePrivateURL` with the
  credentials `h.Mac`.
* `clock` lists the successive readings of `time.Now()`, `ticks` counts the
  readings taken so far, `timeString` is the method `String` of a `Time`.
* `calls` and `log` record what has been called and printed so far. -/
structure World where
  store : GoString → Option GoString
  getFault : GoString → Option GoString
  setFault : GoString → GoString → Option RedisError
  statResult : GoString → GoString → Except GoString FileInfo
  signedURL : GoString → GoString → Int → GoString
  clock : Nat → Time
  ticks : Nat
  timeString : Time → GoString
  calls : List Call
  log : List LogLine

/-- The call `time.Now()`. -/
def World.Now (env : World) : Time × World :=
  (env.clock env.ticks, { env with ticks := env.ticks + 1 })

/-- The call `h.Redis.Get(key).Result()`: a failure of the cache, else
`redis.Nil` when the key has no entry, else the stored value. -/
def World.Get (env : World) (key : GoString) : Except RedisError GoString × World :=
  let env1 := { env with calls := env.calls ++ [Call.Get key] }
  match env.getFault key with
  | some msg => (Except.error (RedisError.other msg), env1)
  | none =>
    match env.store key with
    | none => (Except.error RedisError.Nil, env1)
    | some v => (Except.ok v, env1)

/-- The call `h.Redis.Set(key, value, 0).Err()`: a failure of the cache, which
leaves the entries as they were, or `nil` (here `none`) after storing the
entry without expiry. -/
def World.Set (env : World) (key value : GoString) : Option RedisError × World :=
  let env1 := { env with calls := env.calls ++ [Call.Set key value 0] }
  match env.setFault key value with
  | some err => (some err, env1)
  | none => (none, { env1 with store := fun k => if k = key then some value else env.store k })

/-- The call `bucketManager.Stat(bucket, key)`. -/
def World.Stat (env : World) (bucket key : GoString) : Except GoString FileInfo × World :=
  (env.statResult bucket key, { env with calls := env.calls ++ [Call.Stat bucket key] })

/-- The call `storage.MakePrivateURL(h.Mac, domain, key, deadline)`. -/
def World.MakePrivateURL (env : World) (domain key : GoString) (deadline : Int) :
    GoString × World :=
  (env.signedURL domain key deadline,
    { env with calls := env.calls ++ [Call.MakePrivateURL domain key deadline] })

/-- The marker `time.Now().String()` that the handler stores when the next
reading of the clock is the one used for it. -/
def World.stamp (env : World) : GoString := env.timeString (env.clock env.ticks)

/-- The call `log.Printf`. -/
def World.Printf (env : World) (line : LogLine) : World :=
  { env with log := env.log ++ [line] }

/-! ## Requests and responses -/

/-- The fields of `http.Request` that the handler reads; `XRealIP` is
`r.Header.Get("X-Real-IP")`, empty when the header is absent. -/
structure Request where
  Method : GoString
  RequestURI : GoString
  XRealIP : GoString
  RemoteAddr : GoString
deriving DecidableEq

/-- What the handler has asked the response writer to send: the status code
(none before the header is written), the header fields set before that, the
body bytes, and the target of `http.Redirect`. -/
structure ResponseWriter where
  StatusCode : Option Nat
  header : List (GoString × GoString)
  body : GoString
  redirect : Option GoString
deriving DecidableEq

/-- The writer as the server hands it to the handler. -/
def ResponseWriter.fresh : ResponseWriter := ⟨none, [], [], none⟩

/-- The method `WriteHeader`: the first call fixes the status code. -/
def ResponseWriter.WriteHeader (w : ResponseWriter) (code : Nat) : ResponseWriter :=
  match w.StatusCode with
  | some _ => w
  | none => { w with StatusCode := some code }

/-- The method `Write`: writes the header with status 200 first if it has not
been written, then appends to the body. -/
def ResponseWriter.Write (w : ResponseWriter) (b : GoString) : ResponseWriter :=
  let w1 := w.WriteHeader 200
  { w1 with body := w1.body ++ b }

/-- The call `w.Header().Set(name, value)`; without effect on the response once
the header has been written. -/
def ResponseWriter.SetHeader (w : ResponseWriter) (name value : GoString) : ResponseWriter :=
  match w.StatusCode with
  | some _ => w
  | none => { w with header := (name, value) :: w.header.filter (fun kv => kv.1 ≠ name) }

/-- The call `http.Redirect(w, r, url, code)`: records the target and writes
the header with `code`.  The `Location` and `Content-Type` fields and the
short HTML note that net/http derives from `url` are not modelled. -/
def ResponseWriter.Redirect (w : ResponseWriter) (url : GoString) (code : Nat) :
    ResponseWriter :=
  match w.StatusCode with
  | some _ => w
  | none => { w with redirect := some url, StatusCode := some code }

/-- Modelled from the spec: `NewResponseWriter` (declared in another file of
the repository) wraps the writer of the server so that the status code and
the elapsed time can be read after the handler has run.  The record above
already keeps the status code; the elapsed time is not modelled. -/
def NewResponseWriter (ow : ResponseWriter) : ResponseWriter := ow

/-! ## The handler -/

/-- The fields of `MainHandler` owned by the handler.  `Mac` and `Redis` are
handles on collaborators (see `World`); `StatusCountLock` serialises the
accesses to `StatusCount`, which is why one request at a time is considered. -/
structure MainHandler where
  Domain : GoString
  Bucket : GoString
  StatusCount : Int
deriving DecidableEq

/-- The constant `http.StatusOK`. -/
def StatusOK : Nat := 200
/-- The constant `http.StatusTemporaryRedirect`. -/
def StatusTemporaryRedirect : Nat := 307
/-- The constant `http.StatusNotFound`. -/
def StatusNotFound : Nat := 404
/-- The constant `http.StatusMethodNotAllowed`. -/
def StatusMethodNotAllowed : Nat := 405
/-- The constant `http.StatusInternalServerError`. -/
def StatusInternalServerError : Nat := 500

/-- The method `ServeHead` (handler.go, lines 55-84). -/
def MainHandler.ServeHead (h : MainHandler) (w : ResponseWriter) (env : World) (r : Request) :
    Option (ResponseWriter × World) :=
  if r.RequestURI = ascii "" then
    some (w.WriteHeader StatusNotFound, env)
  else
    match sliceFrom r.RequestURI 1 with
    | none => none
    | some key =>
      match env.Stat h.Bucket key with
      | (Except.error _, env1) => some (w.WriteHeader StatusNotFound, env1)
      | (Except.ok info, env1) =>
        let (now, env2) := env1.Now
        match env2.Set key (env2.timeString now) with
        | (some err, env3) =>
          some (w.WriteHeader StatusInternalServerError,
            env3.Printf (LogLine.error (err.Error ++ ascii "\n")))
        | (none, env3) =>
          some ((w.SetHeader (ascii "Content-Length") (sprintInt info.Fsize)).WriteHeader StatusOK,
            env3)

/-- Lines 128-130 of `ServeGet`: the deadline of the signed URL for a request
whose clock reading is `now`.  The sum is an `int64` in the source; the Unix
time of a clock reading is far from the bounds of that type. -/
def MainHandler.ServeGet.deadline (now : Time) : Int :=
  let zero := Date now.Year now.Month now.Day 0 0 0 0 now.Location
  let expires : Int := 24 * 60 * 60
  zero.Unix + expires

/-- Lines 121-133 of `ServeGet`: refresh the cache entry, compute the deadline,
sign and redirect. -/
def MainHandler.ServeGet.refresh (h : MainHandler) (w : ResponseWriter) (env : World)
    (key : GoString) : ResponseWriter × World :=
  let (stamp, env1) := env.Now
  match env1.Set key (env1.timeString stamp) with
  | (some err, env2) =>
    ((w.WriteHeader StatusInternalServerError).Write
      (ascii "500 - " ++ err.Error ++ ascii "\n"), env2)
  | (none, env2) =>
    let (now, env3) := env2.Now
    let deadline := MainHandler.ServeGet.deadline now
    let (url, env4) := env3.MakePrivateURL h.Domain key deadline
    (w.Redirect (ascii "http://" ++ url) StatusTemporaryRedirect, env4)

/-- The method `ServeGet` (handler.go, lines 86-134). -/
def MainHandler.ServeGet (h : MainHandler) (w : ResponseWriter) (env : World) (r : Request) :
    Option (ResponseWriter × World) :=
  if r.RequestURI = ascii "/" then
    some ((w.WriteHeader StatusNotFound).Write (ascii "404 - Not Found\n"), env)
  else if r.RequestURI = ascii "/_status" then
    some ((w.WriteHeader StatusOK).Write (ascii "200 - OK\n"), env)
  else
    match sliceFrom r.RequestURI 1 with
    | none => none
    | some key =>
      match env.Get key with
      | (Except.error (RedisError.other msg), env1) =>
        some ((w.WriteHeader StatusInternalServerError).Write
          (ascii "500 - " ++ (RedisError.other msg).Error ++ ascii "\n"), env1)
      | (Except.error RedisError.Nil, env1) =>
        match env1.Stat h.Bucket key with
        | (Except.error _, env2) =>
          some ((w.WriteHeader StatusNotFound).Write (ascii "404 - Not Found\n"), env2)
        | (Except.ok _, env2) => some (MainHandler.ServeGet.refresh h w env2 key)
      | (Except.ok _, env1) => some (MainHandler.ServeGet.refresh h w env1 key)

/-- The method `ServeDefault` (handler.go, lines 136-139). -/
def MainHandler.ServeDefault (_h : MainHandler) (w : ResponseWriter) (env : World)
    (_r : Request) : ResponseWriter × World :=
  ((w.WriteHeader StatusMethodNotAllowed).Write (ascii "405 - Method Not Allowed\n"), env)

/-- Lines 48-52 of `ServeHTTP`: the access line. -/
def accessLine (r : Request) (w : ResponseWriter) : LogLine :=
  let ip := if r.XRealIP = ascii "" then r.RemoteAddr else r.XRealIP
  LogLine.access ip r.Method w.StatusCode r.RequestURI

/-- The method `ServeHTTP` (handler.go, lines 24-53).  A panic of the method
that serves the request propagates (`none`) before the counter is touched.
`StatusCount++` is only reached with `StatusCount ≤ 1000`, so the machine
integer cannot overflow there. -/
def MainHandler.ServeHTTP (h : MainHandler) (ow : ResponseWriter) (env : World) (r : Request) :
    Option (MainHandler × ResponseWriter × World) :=
  let w := NewResponseWriter ow
  let served :=
    if r.Method = ascii "HEAD" then h.ServeHead w env r
    else if r.Method = ascii "GET" then h.ServeGet w env r
    else some (h.ServeDefault w env r)
  match served with
  | none => none
  | some (w1, env1) =>
    if r.RequestURI = ascii "/_status" then
      if h.StatusCount > 1000 then
        some ({ h with StatusCount := 0 }, w1, env1.Printf (accessLine r w1))
      else
        some ({ h with StatusCount := h.StatusCount + 1 }, w1, env1)
    else
      some (h, w1, env1.Printf (accessLine r w1))

/-! ## Runs of the handler -/

/-- The calls made between the world `env` and the later world `env1`. -/
def newCalls (env env1 : World) : List Call := env1.calls.drop env.calls.length

/-- The lines printed between the world `env` and the later world `env1`. -/
def newLines (env env1 : World) : List LogLine := env1.log.drop env.log.length

/-- Whether a call is a storage lookup (`Stat`). -/
def Call.isStat : Call → Bool
  | Call.Stat _ _ => true
  | _ => false

/-- Whether a call reads the cache (`Get`). -/
def Call.isGet : Call → Bool
  | Call.Get _ => true
  | _ => false

/-- Whether a printed line is an access line. -/
def LogLine.isAccess : LogLine → Bool
  | LogLine.access _ _ _ _ => true
  | LogLine.error _ => false

/-- Whether `ServeHTTP`, called in state `h` on request `r` against the world
`env`, prints an access line. -/
def emitsAccessLine (h : MainHandler) (env : World) (r : Request) : Bool :=
  match h.ServeHTTP ResponseWriter.fresh env r with
  | some (_, _, env1) => (newLines env env1).any LogLine.isAccess
  | none => false

/-- The state of the handler after serving the requests of a list in order,
each against the world it finds.  A request whose serving panics leaves the
handler as it was (the server recovers the panic). -/
def MainHandler.after (h : MainHandler) (reqs : List (World × Request)) : MainHandler :=
  reqs.foldl (fun h1 er =>
    match h1.ServeHTTP ResponseWriter.fresh er.1 er.2 with
    | some (h2, _, _) => h2
    | none => h1) h

/-- The states of the handler reachable from a counter of 0 by calls of
`ServeHTTP` on any requests, writers and worlds. -/
inductive Reachable : MainHandler → Prop where
  | init (h : MainHandler) : h.StatusCount = 0 → Reachable h
  | step (h h1 : MainHandler) (ow w1 : ResponseWriter) (env env1 : World) (r : Request) :
      Reachable h → h.ServeHTTP ow env r = some (h1, w1, env1) → Reachable h1

/-! ## Sample data -/

/-- The zone of New York around 2026: UTC-5, UTC-4 from 2026-03-08 07:00 UTC,
UTC-5 again from 2026-11-01 06:00 UTC. -/
def newYork : Location := ⟨-18000, [(1772953200, -14400), (1793512800, -18000)]⟩

/-- The instant 2026-11-01 23:30:00 in New York (UTC-5), on the day on which
the clocks were set back by one hour at 02:00. -/
def lateRequest : Time := ⟨1793593800, newYork⟩

/-- The instant 2026-11-02 12:00:00 in New York (UTC-5), the day after the
clocks were set back. -/
def ordinaryNoon : Time := ⟨1793638800, newYork⟩

/-- A world with an empty cache that never fails, a backend that knows every
object as 1234 bytes long, and a clock that stands at 2026-11-01 23:30 in
New York. -/
def sampleWorld : World :=
  ⟨fun _ => none, fun _ => none, fun _ _ => none, fun _ _ => Except.ok ⟨1234⟩,
    fun d k t => d ++ ascii "/" ++ k ++ ascii "?e=" ++ sprintInt t,
    fun _ => lateRequest, 0, fun _ => ascii "now", [], []⟩

/-- A handler for the bucket `pics`, with the counter at 0. -/
def sampleHandler : MainHandler := ⟨ascii "cdn.example.com", ascii "pics", 0⟩

/-- A world whose cache already holds `a.png` and whose backend knows no
object. -/
def hitWorld : World :=
  { sampleWorld with
    store := fun k => if k = ascii "a.png" then some (ascii "earlier") else none
    statResult := fun _ _ => Except.error (ascii "no such file or directory") }

/-- A world whose cache refuses every read. -/
def getFailWorld : World :=
  { sampleWorld with getFault := fun _ => some (ascii "connection refused") }

/-- A world whose cache refuses every write. -/
def setFailWorld : World :=
  { sampleWorld with setFault := fun _ _ => some (RedisError.other (ascii "READONLY")) }

/-- A world whose backend knows no object. -/
def emptyBucketWorld : World :=
  { sampleWorld with statResult := fun _ _ => Except.error (ascii "no such file or directory") }

/-- The request `GET /_status`. -/
def statusRequest : Request := ⟨ascii "GET", ascii "/_status", [], []⟩

/-! ## Calendar lemmas -/

theorem cycles_roundtrip (a r b r100 c r4 e doy mp d m y : Int)
    (hr : 0 ≤ r ∧ r < 146097)
    (hb : b = min (r / 36524) 3) (hr100 : r100 = r - 36524 * b)
    (hc : c = r100 / 1461) (hr4 : r4 = r100 % 1461)
    (he : e = min (r4 / 365) 3) (hdoy : doy = r4 - 365 * e)
    (hy : y = 400 * a + 100 * b + 4 * c + e)
    (hmp : mp = (5 * doy + 2) / 153) (hd : d = doy - (153 * mp + 2) / 5 + 1)
    (hm : m = if mp < 10 then mp + 3 else mp - 9) :
    daysFromCivil (if m ≤ 2 then y + 1 else y) m d = a * 146097 + r - 719468 ∧
      1 ≤ m ∧ m ≤ 12 := by
  have hb1 : 0 ≤ b ∧ b ≤ 3 := by
    rcases min_cases (r / 36524) 3 with ⟨h1, _⟩ | ⟨h1, _⟩ <;> omega
  have h100 : 0 ≤ r100 ∧ r100 ≤ 36524 := by
    rcases min_cases (r / 36524) 3 with ⟨h1, _⟩ | ⟨h1, _⟩ <;> omega
  have hc1 : 0 ≤ c ∧ c ≤ 24 := by omega
  have h4 : 0 ≤ r4 ∧ r4 < 1461 := by omega
  have he1 : 0 ≤ e ∧ e ≤ 3 := by
    rcases min_cases (r4 / 365) 3 with ⟨h1, _⟩ | ⟨h1, _⟩ <;> omega
  have hdoy1 : 0 ≤ doy ∧ doy ≤ 365 := by
    rcases min_cases (r4 / 365) 3 with ⟨h1, _⟩ | ⟨h1, _⟩ <;> omega
  have hmp1 : 0 ≤ mp ∧ mp ≤ 11 := by omega
  have hsum : r = 36524 * b + 1461 * c + 365 * e + doy := by omega
  have hera : y / 400 = a := by omega
  have hyoe : y - a * 400 = 100 * b + 4 * c + e := by omega
  have hq4 : (100 * b + 4 * c + e) / 4 = 25 * b + c := by omega
  have hq100 : (100 * b + 4 * c + e) / 100 = b := by omega
  clear hb hr100 hc hr4 he hdoy
  subst hm
  by_cases h10 : mp < 10
  · have h1 : ¬ (mp + 3 ≤ 2) := by omega
    have h2 : mp + 3 > 2 := by omega
    have h3 : mp + 3 - 3 = mp := by omega
    simp only [daysFromCivil]
    rw [if_pos h10, if_neg h1, if_neg h1, if_pos h2, hera, hyoe, hq4, hq100, h3]
    omega
  · have h1 : mp - 9 ≤ 2 := by omega
    have h2 : ¬ (mp - 9 > 2) := by omega
    have h3 : y + 1 - 1 = y := by omega
    have h4 : mp - 9 + 9 = mp := by omega
    simp only [daysFromCivil]
    rw [if_neg h10, if_pos h1, if_pos h1, if_neg h2, h3, h4, hera, hyoe, hq4, hq100]
    omega

/-- Converting a day number to a civil date and back gives the day number,
and the month of a civil date is in 1..12. -/
theorem daysFromCivil_civilFromDays (z : Int) :
    daysFromCivil (civilFromDays z).1 (civilFromDays z).2.1 (civilFromDays z).2.2 = z ∧
      1 ≤ (civilFromDays z).2.1 ∧ (civilFromDays z).2.1 ≤ 12 := by
  have h := cycles_roundtrip ((z + 719468) / 146097) ((z + 719468) % 146097) _ _ _ _ _ _ _ _ _ _
    (by omega) rfl rfl rfl rfl rfl rfl rfl rfl rfl rfl
  simp only [civilFromDays]
  refine ⟨?_, h.2.1, h.2.2⟩
  rw [h.1]; omega


/-! ## Basic facts -/

@[simp] theorem ascii_empty : ascii "" = [] := rfl

@[simp] theorem sliceFrom_cons_one (c : UInt8) (K : GoString) :
    sliceFrom (c :: K) 1 = some K := by
  simp [sliceFrom]

@[simp] theorem sliceFrom_nil_one : sliceFrom ([] : GoString) 1 = none := by
  simp [sliceFrom]

/-- C8. `ServeGet` on the request-target `/` answers 404 with the body
`404 - Not Found` and on `/_status` answers 200 with the body `200 - OK`,
whatever the state of the cache and of the storage, and leaves the world as
it found it: no call to the cache or to the storage is made. -/
theorem ServeGet_root_and_status (h : MainHandler) (env : World) (m ip addr : GoString) :
    h.ServeGet ResponseWriter.fresh env ⟨m, ascii "/", ip, addr⟩
        = some (⟨some 404, [], ascii "404 - Not Found\n", none⟩, env) ∧
      h.ServeGet ResponseWriter.fresh env ⟨m, ascii "/_status", ip, addr⟩
        = some (⟨some 200, [], ascii "200 - OK\n", none⟩, env) := by
  constructor
  · simp [MainHandler.ServeGet, ResponseWriter.fresh, ResponseWriter.WriteHeader,
      ResponseWriter.Write, StatusNotFound]
  · have hne : ascii "/_status" ≠ ascii "/" := by decide
    simp [MainHandler.ServeGet, hne, ResponseWriter.fresh, ResponseWriter.WriteHeader,
      ResponseWriter.Write, StatusOK]

/-- C9. A request whose method is neither `GET` nor `HEAD` (compared byte for
byte) is answered by `ServeHTTP` with 405 and the body
`405 - Method Not Allowed`, for every request-target, and the only change to
the world is what `ServeHTTP` itself prints: no call to the cache or to the
storage is made, the cache is as before.  A `HEAD` request gets the response
and the calls of `ServeHead`, a `GET` request those of `ServeGet`, and
`ServeHTTP` panics exactly when that method does. -/
theorem ServeHTTP_dispatch (h : MainHandler) (ow : ResponseWriter) (env : World) (r : Request) :
    (r.Method ≠ ascii "GET" → r.Method ≠ ascii "HEAD" →
      ∃ h1 env1, h.ServeHTTP ResponseWriter.fresh env r
          = some (h1, ⟨some 405, [], ascii "405 - Method Not Allowed\n", none⟩, env1) ∧
        env1.calls = env.calls ∧ env1.store = env.store) ∧
    (r.Method = ascii "HEAD" →
      (h.ServeHTTP ow env r).map (fun o => (o.2.1, o.2.2.calls, o.2.2.store))
        = (h.ServeHead ow env r).map (fun o => (o.1, o.2.calls, o.2.store))) ∧
    (r.Method = ascii "GET" →
      (h.ServeHTTP ow env r).map (fun o => (o.2.1, o.2.2.calls, o.2.2.store))
        = (h.ServeGet ow env r).map (fun o => (o.1, o.2.calls, o.2.store))) := by
  have hne : ascii "GET" ≠ ascii "HEAD" := by decide
  refine ⟨?_, ?_, ?_⟩
  · intro hG hH
    simp only [MainHandler.ServeHTTP, NewResponseWriter, if_neg hG, if_neg hH,
      MainHandler.ServeDefault]
    split_ifs <;> exact ⟨_, _, rfl, rfl, rfl⟩
  · intro hH
    simp only [MainHandler.ServeHTTP, NewResponseWriter, if_pos hH]
    cases h.ServeHead ow env r with
    | none => rfl
    | some o => obtain ⟨w1, env1⟩ := o; dsimp only; split_ifs <;> simp [World.Printf]
  · intro hG
    have hH : r.Method ≠ ascii "HEAD" := by rw [hG]; exact hne
    simp only [MainHandler.ServeHTTP, NewResponseWriter, if_pos hG, if_neg hH]
    cases h.ServeGet ow env r with
    | none => rfl
    | some o => obtain ⟨w1, env1⟩ := o; dsimp only; split_ifs <;> simp [World.Printf]

/-- Witness for `ServeHTTP_dispatch`: a request with the method `get` in
lower case, a `HEAD` and a `GET` request. -/
theorem ServeHTTP_dispatch_witness :
    (∃ h1 env1, sampleHandler.ServeHTTP ResponseWriter.fresh sampleWorld
          ⟨ascii "get", ascii "/a.png", [], []⟩
          = some (h1, ⟨some 405, [], ascii "405 - Method Not Allowed\n", none⟩, env1) ∧
        env1.calls = sampleWorld.calls ∧ env1.store = sampleWorld.store) ∧
    (sampleHandler.ServeHTTP ResponseWriter.fresh sampleWorld
          ⟨ascii "HEAD", ascii "/a.png", [], []⟩).map (fun o => (o.2.1, o.2.2.calls, o.2.2.store))
        = (sampleHandler.ServeHead ResponseWriter.fresh sampleWorld
          ⟨ascii "HEAD", ascii "/a.png", [], []⟩).map (fun o => (o.1, o.2.calls, o.2.store)) ∧
    (sampleHandler.ServeHTTP ResponseWriter.fresh sampleWorld
          ⟨ascii "GET", ascii "/a.png", [], []⟩).map (fun o => (o.2.1, o.2.2.calls, o.2.2.store))
        = (sampleHandler.ServeGet ResponseWriter.fresh sampleWorld
          ⟨ascii "GET", ascii "/a.png", [], []⟩).map (fun o => (o.1, o.2.calls, o.2.store)) :=
  ⟨(ServeHTTP_dispatch sampleHandler ResponseWriter.fresh sampleWorld
      ⟨ascii "get", ascii "/a.png", [], []⟩).1 (by decide) (by decide),
   (ServeHTTP_dispatch sampleHandler ResponseWriter.fresh sampleWorld
      ⟨ascii "HEAD", ascii "/a.png", [], []⟩).2.1 rfl,
   (ServeHTTP_dispatch sampleHandler ResponseWriter.fresh sampleWorld
      ⟨ascii "GET", ascii "/a.png", [], []⟩).2.2 rfl⟩

/-! ## Results of the collaborators -/

theorem get_error_nil (env : World) (K : GoString)
    (hget : (env.Get K).1 = Except.error RedisError.Nil) :
    env.getFault K = none ∧ env.store K = none := by
  unfold World.Get at hget
  cases hf : env.getFault K <;> cases hs : env.store K <;> simp [hf, hs] at hget ⊢

theorem get_ok (env : World) (K v0 : GoString) (hget : (env.Get K).1 = Except.ok v0) :
    env.getFault K = none ∧ env.store K = some v0 := by
  unfold World.Get at hget
  cases hf : env.getFault K <;> cases hs : env.store K <;> simp [hf, hs] at hget ⊢
  exact hget

theorem get_error_other (env : World) (K : GoString) (e : RedisError)
    (hget : (env.Get K).1 = Except.error e) (hne : e ≠ RedisError.Nil) :
    ∃ msg, e = RedisError.other msg ∧ env.getFault K = some msg := by
  unfold World.Get at hget
  cases hf : env.getFault K <;> cases hs : env.store K <;> simp [hf, hs] at hget ⊢
  · exact hne hget.symm
  · exact hget.symm
  · exact hget.symm

theorem set_none (env : World) (K v : GoString) (hset : (env.Set K v).1 = none) :
    env.setFault K v = none := by
  unfold World.Set at hset
  cases hf : env.setFault K v <;> simp [hf] at hset ⊢

theorem set_some (env : World) (K v : GoString) (err : RedisError)
    (hset : (env.Set K v).1 = some err) : env.setFault K v = some err := by
  unfold World.Set at hset
  cases hf : env.setFault K v <;> simp [hf] at hset ⊢
  exact hset

/-- The redirect of `ServeGet` when the cache write succeeds. -/
theorem refresh_ok (h : MainHandler) (env : World) (K : GoString)
    (hset : env.setFault K (env.timeString (env.clock env.ticks)) = none) :
    ∃ env1, MainHandler.ServeGet.refresh h ResponseWriter.fresh env K
        = (⟨some 307, [], [], some (ascii "http://" ++ env.signedURL h.Domain K
            (MainHandler.ServeGet.deadline (env.clock (env.ticks + 1))))⟩, env1) ∧
      env1.calls = env.calls ++ [Call.Set K (env.timeString (env.clock env.ticks)) 0,
        Call.MakePrivateURL h.Domain K
          (MainHandler.ServeGet.deadline (env.clock (env.ticks + 1)))] ∧
      env1.store K = some (env.timeString (env.clock env.ticks)) := by
  simp [MainHandler.ServeGet.refresh, World.Now, World.Set, hset, World.MakePrivateURL,
    ResponseWriter.fresh, ResponseWriter.Redirect, StatusTemporaryRedirect]

/-- The answer of `ServeGet` when the cache write fails. -/
theorem refresh_fail (h : MainHandler) (env : World) (K : GoString) (err : RedisError)
    (hset : env.setFault K (env.timeString (env.clock env.ticks)) = some err) :
    ∃ env1, MainHandler.ServeGet.refresh h ResponseWriter.fresh env K
        = (⟨some 500, [], ascii "500 - " ++ err.Error ++ ascii "\n", none⟩, env1) ∧
      env1.calls = env.calls ++ [Call.Set K (env.timeString (env.clock env.ticks)) 0] ∧
      env1.store = env.store := by
  simp [MainHandler.ServeGet.refresh, World.Now, World.Set, hset,
    ResponseWriter.fresh, ResponseWriter.WriteHeader, ResponseWriter.Write,
    StatusInternalServerError]

theorem newCalls_append (env env1 : World) (l : List Call)
    (h : env1.calls = env.calls ++ l) : newCalls env env1 = l := by
  simp [newCalls, h]


/-! ## The GET path -/

/-- C1. Cache miss, object present, cache write accepted.  For a
request-target `c :: K` other than `/` and `/_status`: if the cache answers
`redis.Nil` for `K`, `Stat` succeeds for `K` and the cache accepts the write,
then `ServeGet` calls, in this order, `Get K`, `Stat Bucket K`, `Set K` and
`MakePrivateURL Domain K deadline` and nothing else, so exactly one storage
lookup is made and it is for `K`; afterwards the cache holds the entry
written for `K`; the response is a 307 whose target is `http://` followed by
the signed URL produced for `(Domain, K, deadline)`. -/
theorem ServeGet_miss (h : MainHandler) (env : World) (m ip addr : GoString) (c : UInt8)
    (K : GoString) (info : FileInfo)
    (hroot : c :: K ≠ ascii "/") (hstatus : c :: K ≠ ascii "/_status")
    (hget : (env.Get K).1 = Except.error RedisError.Nil)
    (hstat : (env.Stat h.Bucket K).1 = Except.ok info)
    (hset : (env.Set K env.stamp).1 = none) :
    ∃ w1 env1, h.ServeGet ResponseWriter.fresh env ⟨m, c :: K, ip, addr⟩ = some (w1, env1) ∧
      w1.StatusCode = some 307 ∧
      w1.redirect = some (ascii "http://" ++ (env.MakePrivateURL h.Domain K
        (MainHandler.ServeGet.deadline (env.clock (env.ticks + 1)))).1) ∧
      newCalls env env1 = [Call.Get K, Call.Stat h.Bucket K, Call.Set K env.stamp 0,
        Call.MakePrivateURL h.Domain K
          (MainHandler.ServeGet.deadline (env.clock (env.ticks + 1)))] ∧
      (newCalls env env1).filter Call.isStat = [Call.Stat h.Bucket K] ∧
      env1.store K = some env.stamp := by
  obtain ⟨hf, hs⟩ := get_error_nil env K hget
  have hsf := set_none env K _ hset
  have hst : env.statResult h.Bucket K = Except.ok info := hstat
  simp only [MainHandler.ServeGet, if_neg hroot, if_neg hstatus, sliceFrom_cons_one,
    World.Get, hf, hs, World.Stat, hst]
  obtain ⟨env1, h1, h2, h3⟩ := refresh_ok h
    { env with calls := env.calls ++ [Call.Get K] ++ [Call.Stat h.Bucket K] } K hsf
  have hc : newCalls env env1 = [Call.Get K, Call.Stat h.Bucket K, Call.Set K env.stamp 0,
      Call.MakePrivateURL h.Domain K
        (MainHandler.ServeGet.deadline (env.clock (env.ticks + 1)))] := by
    apply newCalls_append; rw [h2]; simp [World.stamp]
  refine ⟨_, env1, by rw [h1], rfl, rfl, hc, ?_, h3⟩
  rw [hc]; rfl

/-- Witness for `ServeGet_miss`: `GET /a.png` in the sample world. -/
theorem ServeGet_miss_witness :
    ∃ w1 env1, sampleHandler.ServeGet ResponseWriter.fresh sampleWorld
        ⟨ascii "GET", ascii "/a.png", [], []⟩ = some (w1, env1) ∧
      w1.StatusCode = some 307 ∧
      w1.redirect = some (ascii "http://cdn.example.com/a.png?e=1793592000") ∧
      newCalls sampleWorld env1 = [Call.Get (ascii "a.png"),
        Call.Stat (ascii "pics") (ascii "a.png"), Call.Set (ascii "a.png") (ascii "now") 0,
        Call.MakePrivateURL (ascii "cdn.example.com") (ascii "a.png") 1793592000] ∧
      (newCalls sampleWorld env1).filter Call.isStat
        = [Call.Stat (ascii "pics") (ascii "a.png")] ∧
      env1.store (ascii "a.png") = some (ascii "now") :=
  ServeGet_miss sampleHandler sampleWorld (ascii "GET") [] [] 47 (ascii "a.png") ⟨1234⟩
    (by decide) (by decide) rfl rfl rfl

/-- C2. Cache hit, cache write accepted.  For a request-target `c :: K` other
than `/` and `/_status`: if the cache returns a value for `K`, whatever it
is, and accepts the write, then `ServeGet` calls `Get K`, `Set K` and
`MakePrivateURL` and nothing else, so no storage lookup is made, whatever the
storage would have answered; the entry of `K` is rewritten; the response is
a 307. -/
theorem ServeGet_hit (h : MainHandler) (env : World) (m ip addr : GoString) (c : UInt8)
    (K v0 : GoString)
    (hroot : c :: K ≠ ascii "/") (hstatus : c :: K ≠ ascii "/_status")
    (hget : (env.Get K).1 = Except.ok v0)
    (hset : (env.Set K env.stamp).1 = none) :
    ∃ w1 env1, h.ServeGet ResponseWriter.fresh env ⟨m, c :: K, ip, addr⟩ = some (w1, env1) ∧
      w1.StatusCode = some 307 ∧
      newCalls env env1 = [Call.Get K, Call.Set K env.stamp 0,
        Call.MakePrivateURL h.Domain K
          (MainHandler.ServeGet.deadline (env.clock (env.ticks + 1)))] ∧
      (newCalls env env1).filter Call.isStat = [] ∧
      env1.store K = some env.stamp := by
  obtain ⟨hf, hs⟩ := get_ok env K v0 hget
  have hsf := set_none env K _ hset
  simp only [MainHandler.ServeGet, if_neg hroot, if_neg hstatus, sliceFrom_cons_one,
    World.Get, hf, hs]
  obtain ⟨env1, h1, h2, h3⟩ := refresh_ok h
    { env with calls := env.calls ++ [Call.Get K] } K hsf
  have hc : newCalls env env1 = [Call.Get K, Call.Set K env.stamp 0,
      Call.MakePrivateURL h.Domain K
        (MainHandler.ServeGet.deadline (env.clock (env.ticks + 1)))] := by
    apply newCalls_append; rw [h2]; simp [World.stamp]
  refine ⟨_, env1, by rw [h1], rfl, hc, ?_, h3⟩
  rw [hc]; rfl

/-- Witness for `ServeGet_hit`: `GET /a.png` when the cache holds `a.png` and
the backend does not have the object. -/
theorem ServeGet_hit_witness :
    (hitWorld.Stat (ascii "pics") (ascii "a.png")).1
        = Except.error (ascii "no such file or directory") ∧
    ∃ w1 env1, sampleHandler.ServeGet ResponseWriter.fresh hitWorld
        ⟨ascii "GET", ascii "/a.png", [], []⟩ = some (w1, env1) ∧
      w1.StatusCode = some 307 ∧
      newCalls hitWorld env1 = [Call.Get (ascii "a.png"),
        Call.Set (ascii "a.png") (ascii "now") 0,
        Call.MakePrivateURL (ascii "cdn.example.com") (ascii "a.png") 1793592000] ∧
      (newCalls hitWorld env1).filter Call.isStat = [] ∧
      env1.store (ascii "a.png") = some (ascii "now") :=
  ⟨rfl, ServeGet_hit sampleHandler hitWorld (ascii "GET") [] [] 47 (ascii "a.png")
    (ascii "earlier") (by decide) (by decide) rfl rfl⟩


/-- The status codes that `ServeGet.refresh` can write, and what a 307 tells. -/
theorem refresh_status (h : MainHandler) (env : World) (K : GoString) :
    (MainHandler.ServeGet.refresh h ResponseWriter.fresh env K).1.StatusCode = some 307 →
      env.setFault K (env.timeString (env.clock env.ticks)) = none := by
  intro h307
  cases hsf : env.setFault K (env.timeString (env.clock env.ticks)) with
  | none => rfl
  | some err =>
    obtain ⟨env1, h1, _, _⟩ := refresh_fail h env K err hsf
    rw [h1] at h307
    simp at h307

/-- What a 307 written by `ServeGet.refresh` tells about the cache write. -/
theorem refresh_307 (h : MainHandler) (env : World) (K : GoString) (w1 : ResponseWriter)
    (env1 : World) (hrun : MainHandler.ServeGet.refresh h ResponseWriter.fresh env K = (w1, env1))
    (h307 : w1.StatusCode = some 307) :
    env.setFault K (env.timeString (env.clock env.ticks)) = none ∧
      env1.calls = env.calls ++ [Call.Set K (env.timeString (env.clock env.ticks)) 0,
        Call.MakePrivateURL h.Domain K
          (MainHandler.ServeGet.deadline (env.clock (env.ticks + 1)))] ∧
      env1.store K = some (env.timeString (env.clock env.ticks)) := by
  have hsf := refresh_status h env K (by rw [hrun]; exact h307)
  obtain ⟨env2, h1, h2, h3⟩ := refresh_ok h env K hsf
  rw [hrun] at h1
  simp only [Prod.mk.injEq] at h1
  obtain ⟨_, rfl⟩ := h1
  exact ⟨hsf, h2, h3⟩

theorem set_fault_none (env : World) (K v : GoString) (hsf : env.setFault K v = none) :
    (env.Set K v).1 = none := by
  simp [World.Set, hsf]

/-- C7. Cache failures in `ServeGet`, for a request-target `c :: K` other than
`/` and `/_status`.  (a) If the cache read fails with an error `e` other than
`redis.Nil`, the response is 500 with the body `500 - ` + message of `e` +
newline, the read is the only call made and the cache is unchanged.  (b) If
the cache write fails with `e`, after a hit or after a miss followed by a
successful `Stat`, the response is 500 with the body `500 - ` + message of
`e` + newline.  (c) For every request, a response with status 307 is only
produced when the write for the key of the request was made and accepted. -/
theorem ServeGet_cache_failures (h : MainHandler) (env : World) (m ip addr : GoString)
    (c : UInt8) (K : GoString)
    (hroot : c :: K ≠ ascii "/") (hstatus : c :: K ≠ ascii "/_status") :
    (∀ e, (env.Get K).1 = Except.error e → e ≠ RedisError.Nil →
      ∃ env1, h.ServeGet ResponseWriter.fresh env ⟨m, c :: K, ip, addr⟩
          = some (⟨some 500, [], ascii "500 - " ++ e.Error ++ ascii "\n", none⟩, env1) ∧
        newCalls env env1 = [Call.Get K] ∧ env1.store = env.store) ∧
    (∀ e, ((∃ v0, (env.Get K).1 = Except.ok v0) ∨
          ((env.Get K).1 = Except.error RedisError.Nil ∧
            ∃ info, (env.Stat h.Bucket K).1 = Except.ok info)) →
        (env.Set K env.stamp).1 = some e →
      ∃ env1, h.ServeGet ResponseWriter.fresh env ⟨m, c :: K, ip, addr⟩
          = some (⟨some 500, [], ascii "500 - " ++ e.Error ++ ascii "\n", none⟩, env1)) ∧
    (∀ r w1 env1, h.ServeGet ResponseWriter.fresh env r = some (w1, env1) →
        w1.StatusCode = some 307 →
      ∃ key, sliceFrom r.RequestURI 1 = some key ∧ (env.Set key env.stamp).1 = none ∧
        Call.Set key env.stamp 0 ∈ newCalls env env1 ∧ env1.store key = some env.stamp) := by
  refine ⟨?_, ?_, ?_⟩
  · intro e hget hne
    obtain ⟨msg, rfl, hf⟩ := get_error_other env K e hget hne
    simp only [MainHandler.ServeGet, if_neg hroot, if_neg hstatus, sliceFrom_cons_one,
      World.Get, hf]
    exact ⟨_, rfl, by simp [newCalls], rfl⟩
  · intro e hcase hset
    have hsf := set_some env K _ e hset
    rcases hcase with ⟨v0, hget⟩ | ⟨hget, info, hstat⟩
    · obtain ⟨hf, hs⟩ := get_ok env K v0 hget
      simp only [MainHandler.ServeGet, if_neg hroot, if_neg hstatus, sliceFrom_cons_one,
        World.Get, hf, hs]
      obtain ⟨env1, h1, _, _⟩ := refresh_fail h
        { env with calls := env.calls ++ [Call.Get K] } K e hsf
      exact ⟨env1, by rw [h1]⟩
    · obtain ⟨hf, hs⟩ := get_error_nil env K hget
      have hst : env.statResult h.Bucket K = Except.ok info := hstat
      simp only [MainHandler.ServeGet, if_neg hroot, if_neg hstatus, sliceFrom_cons_one,
        World.Get, hf, hs, World.Stat, hst]
      obtain ⟨env1, h1, _, _⟩ := refresh_fail h
        { env with calls := env.calls ++ [Call.Get K] ++ [Call.Stat h.Bucket K] } K e hsf
      exact ⟨env1, by rw [h1]⟩
  · intro r w1 env1 hrun h307
    unfold MainHandler.ServeGet at hrun
    split_ifs at hrun with hr hs
    · simp only [Option.some.injEq, Prod.mk.injEq] at hrun
      rw [← hrun.1] at h307
      simp [ResponseWriter.fresh, ResponseWriter.WriteHeader, ResponseWriter.Write,
        StatusNotFound] at h307
    · simp only [Option.some.injEq, Prod.mk.injEq] at hrun
      rw [← hrun.1] at h307
      simp [ResponseWriter.fresh, ResponseWriter.WriteHeader, ResponseWriter.Write,
        StatusOK] at h307
    · cases hk : sliceFrom r.RequestURI 1 with
      | none => rw [hk] at hrun; simp at hrun
      | some key =>
        rw [hk] at hrun
        refine ⟨key, rfl, ?_⟩
        simp only [World.Get, World.Stat] at hrun
        cases hf : env.getFault key with
        | some msg =>
          rw [hf] at hrun
          simp only [Option.some.injEq, Prod.mk.injEq] at hrun
          rw [← hrun.1] at h307
          simp [ResponseWriter.fresh, ResponseWriter.WriteHeader, ResponseWriter.Write,
            StatusInternalServerError] at h307
        | none =>
          rw [hf] at hrun
          cases hs : env.store key with
          | none =>
            rw [hs] at hrun
            dsimp only at hrun
            cases hst : env.statResult h.Bucket key with
            | error e =>
              rw [hst] at hrun
              simp only [Option.some.injEq, Prod.mk.injEq] at hrun
              rw [← hrun.1] at h307
              simp [ResponseWriter.fresh, ResponseWriter.WriteHeader, ResponseWriter.Write,
                StatusNotFound] at h307
            | ok info =>
              rw [hst] at hrun
              simp only [Option.some.injEq] at hrun
              obtain ⟨g1, g2, g3⟩ := refresh_307 h _ key w1 env1 hrun h307
              refine ⟨set_fault_none env key _ g1, ?_, g3⟩
              have hc : newCalls env env1 = [Call.Get key, Call.Stat h.Bucket key,
                  Call.Set key env.stamp 0, Call.MakePrivateURL h.Domain key
                    (MainHandler.ServeGet.deadline (env.clock (env.ticks + 1)))] := by
                simp [newCalls, g2, World.stamp]
              rw [hc]; simp
          | some v0 =>
            rw [hs] at hrun
            simp only [Option.some.injEq] at hrun
            obtain ⟨g1, g2, g3⟩ := refresh_307 h _ key w1 env1 hrun h307
            refine ⟨set_fault_none env key _ g1, ?_, g3⟩
            have hc : newCalls env env1 = [Call.Get key,
                Call.Set key env.stamp 0, Call.MakePrivateURL h.Domain key
                  (MainHandler.ServeGet.deadline (env.clock (env.ticks + 1)))] := by
              simp [newCalls, g2, World.stamp]
            rw [hc]; simp


/-- Witness for `ServeGet_cache_failures`: `GET /a.png` against a cache that
refuses reads, against one that refuses writes, and in the sample world. -/
theorem ServeGet_cache_failures_witness :
    (∃ env1, sampleHandler.ServeGet ResponseWriter.fresh getFailWorld
          ⟨ascii "GET", ascii "/a.png", [], []⟩
          = some (⟨some 500, [], ascii "500 - connection refused\n", none⟩, env1) ∧
        newCalls getFailWorld env1 = [Call.Get (ascii "a.png")] ∧
        env1.store = getFailWorld.store) ∧
    (∃ env1, sampleHandler.ServeGet ResponseWriter.fresh setFailWorld
          ⟨ascii "GET", ascii "/a.png", [], []⟩
          = some (⟨some 500, [], ascii "500 - READONLY\n", none⟩, env1)) :=
  ⟨(ServeGet_cache_failures sampleHandler getFailWorld (ascii "GET") [] [] 47 (ascii "a.png")
      (by decide) (by decide)).1 (RedisError.other (ascii "connection refused")) rfl
      (by decide),
   (ServeGet_cache_failures sampleHandler setFailWorld (ascii "GET") [] [] 47 (ascii "a.png")
      (by decide) (by decide)).2.1 (RedisError.other (ascii "READONLY"))
      (Or.inr ⟨rfl, ⟨1234⟩, rfl⟩) rfl⟩

/-! ## The HEAD path -/

/-- C3. `ServeHead` on a non-empty request-target `c :: K` (the target `/`
included, with the empty key).  (a) If `Stat` fails for `K`, the response is
404 without body, `Stat` is the only call made and the cache is unchanged.
(b) If `Stat` succeeds and the cache write fails, the response is 500 without
body and without `Content-Length`, and the error is printed.  (c) If both
succeed, the response is 200 without body, with `Content-Length` set to the
decimal rendering of the size that `Stat` reported, and the cache holds the
entry written for `K`.  (d) `ServeHead` never calls `Get`, on any request. -/
theorem ServeHead_outcomes (h : MainHandler) (env : World) (m ip addr : GoString) (c : UInt8)
    (K : GoString) (r : Request) :
    (∀ e, (env.Stat h.Bucket K).1 = Except.error e →
      ∃ env1, h.ServeHead ResponseWriter.fresh env ⟨m, c :: K, ip, addr⟩
          = some (⟨some 404, [], [], none⟩, env1) ∧
        newCalls env env1 = [Call.Stat h.Bucket K] ∧ env1.store = env.store) ∧
    (∀ info err, (env.Stat h.Bucket K).1 = Except.ok info →
        (env.Set K env.stamp).1 = some err →
      ∃ env1, h.ServeHead ResponseWriter.fresh env ⟨m, c :: K, ip, addr⟩
          = some (⟨some 500, [], [], none⟩, env1) ∧
        newCalls env env1 = [Call.Stat h.Bucket K, Call.Set K env.stamp 0] ∧
        newLines env env1 = [LogLine.error (err.Error ++ ascii "\n")]) ∧
    (∀ info, (env.Stat h.Bucket K).1 = Except.ok info → (env.Set K env.stamp).1 = none →
      ∃ env1, h.ServeHead ResponseWriter.fresh env ⟨m, c :: K, ip, addr⟩
          = some (⟨some 200, [(ascii "Content-Length", sprintInt info.Fsize)], [], none⟩,
              env1) ∧
        newCalls env env1 = [Call.Stat h.Bucket K, Call.Set K env.stamp 0] ∧
        env1.store K = some env.stamp) ∧
    (∀ w1 env1, h.ServeHead ResponseWriter.fresh env r = some (w1, env1) →
      (newCalls env env1).filter Call.isGet = []) := by
  have hne : ¬ (c :: K = ascii "") := by simp
  refine ⟨?_, ?_, ?_, ?_⟩
  · intro e hstat
    have hst : env.statResult h.Bucket K = Except.error e := hstat
    simp only [MainHandler.ServeHead, if_neg hne, sliceFrom_cons_one, World.Stat, hst]
    exact ⟨_, rfl, by simp [newCalls], rfl⟩
  · intro info err hstat hset
    have hst : env.statResult h.Bucket K = Except.ok info := hstat
    have hsf : env.setFault K (env.timeString (env.clock env.ticks)) = some err :=
      set_some env K _ err hset
    simp only [MainHandler.ServeHead, if_neg hne, sliceFrom_cons_one, World.Stat, hst,
      World.Now, World.Set, hsf]
    exact ⟨_, rfl, by simp [newCalls, World.stamp, World.Printf],
      by simp [newLines, World.Printf]⟩
  · intro info hstat hset
    have hst : env.statResult h.Bucket K = Except.ok info := hstat
    have hsf : env.setFault K (env.timeString (env.clock env.ticks)) = none :=
      set_none env K _ hset
    simp only [MainHandler.ServeHead, if_neg hne, sliceFrom_cons_one, World.Stat, hst,
      World.Now, World.Set, hsf]
    exact ⟨_, rfl, by simp [newCalls, World.stamp], by simp [World.stamp]⟩
  · intro w1 env1 hrun
    unfold MainHandler.ServeHead at hrun
    split_ifs at hrun with hr
    · simp only [Option.some.injEq, Prod.mk.injEq] at hrun
      rw [← hrun.2]; simp [newCalls]
    · cases hk : sliceFrom r.RequestURI 1 with
      | none => rw [hk] at hrun; simp at hrun
      | some key =>
        rw [hk] at hrun
        simp only [World.Stat, World.Now, World.Set] at hrun
        cases hst : env.statResult h.Bucket key with
        | error e =>
          rw [hst] at hrun
          simp only [Option.some.injEq, Prod.mk.injEq] at hrun
          rw [← hrun.2]; simp [newCalls, Call.isGet]
        | ok info =>
          rw [hst] at hrun
          dsimp only at hrun
          cases hsf : env.setFault key (env.timeString (env.clock env.ticks)) with
          | none =>
            rw [hsf] at hrun
            simp only [Option.some.injEq, Prod.mk.injEq] at hrun
            rw [← hrun.2]; simp [newCalls, Call.isGet]
          | some err =>
            rw [hsf] at hrun
            simp only [Option.some.injEq, Prod.mk.injEq] at hrun
            rw [← hrun.2]; simp [newCalls, Call.isGet, World.Printf]

/-- Witness for `ServeHead_outcomes`: `HEAD /a.png` against a backend without
the object, against a cache that refuses writes, and in the sample world. -/
theorem ServeHead_outcomes_witness :
    (∃ env1, sampleHandler.ServeHead ResponseWriter.fresh emptyBucketWorld
          ⟨ascii "HEAD", ascii "/a.png", [], []⟩ = some (⟨some 404, [], [], none⟩, env1) ∧
        newCalls emptyBucketWorld env1 = [Call.Stat (ascii "pics") (ascii "a.png")] ∧
        env1.store = emptyBucketWorld.store) ∧
    (∃ env1, sampleHandler.ServeHead ResponseWriter.fresh setFailWorld
          ⟨ascii "HEAD", ascii "/a.png", [], []⟩ = some (⟨some 500, [], [], none⟩, env1) ∧
        newCalls setFailWorld env1 = [Call.Stat (ascii "pics") (ascii "a.png"),
          Call.Set (ascii "a.png") (ascii "now") 0] ∧
        newLines setFailWorld env1 = [LogLine.error (ascii "READONLY\n")]) ∧
    (∃ env1, sampleHandler.ServeHead ResponseWriter.fresh sampleWorld
          ⟨ascii "HEAD", ascii "/a.png", [], []⟩
          = some (⟨some 200, [(ascii "Content-Length", ascii "1234")], [], none⟩, env1) ∧
        newCalls sampleWorld env1 = [Call.Stat (ascii "pics") (ascii "a.png"),
          Call.Set (ascii "a.png") (ascii "now") 0] ∧
        env1.store (ascii "a.png") = some (ascii "now")) :=
  ⟨(ServeHead_outcomes sampleHandler emptyBucketWorld (ascii "HEAD") [] [] 47 (ascii "a.png")
      ⟨[], [], [], []⟩).1 (ascii "no such file or directory") rfl,
   (ServeHead_outcomes sampleHandler setFailWorld (ascii "HEAD") [] [] 47 (ascii "a.png")
      ⟨[], [], [], []⟩).2.1 ⟨1234⟩ (RedisError.other (ascii "READONLY")) rfl rfl,
   (ServeHead_outcomes sampleHandler sampleWorld (ascii "HEAD") [] [] 47 (ascii "a.png")
      ⟨[], [], [], []⟩).2.2.1 ⟨1234⟩ rfl rfl⟩


/-! ## Completion -/

theorem ServeHead_isSome (h : MainHandler) (w : ResponseWriter) (env : World) (r : Request) :
    (h.ServeHead w env r).isSome = true := by
  unfold MainHandler.ServeHead
  rcases hU : r.RequestURI with _ | ⟨c, K⟩
  · simp
  · have hne : ¬ (c :: K = ascii "") := by simp
    rw [if_neg hne]
    simp only [sliceFrom_cons_one, World.Stat, World.Now, World.Set]
    cases env.statResult h.Bucket K with
    | error e => rfl
    | ok info => dsimp only; split <;> rfl

theorem ServeGet_isSome (h : MainHandler) (w : ResponseWriter) (env : World) (r : Request)
    (hne : r.RequestURI ≠ ascii "") : (h.ServeGet w env r).isSome = true := by
  unfold MainHandler.ServeGet
  rcases hU : r.RequestURI with _ | ⟨c, K⟩
  · exact absurd hU hne
  · split_ifs
    · rfl
    · rfl
    · simp only [sliceFrom_cons_one, World.Get, World.Stat]
      cases env.getFault K with
      | some msg => rfl
      | none =>
        cases env.store K with
        | some v0 => rfl
        | none =>
          dsimp only
          cases env.statResult h.Bucket K with
          | error e => rfl
          | ok info => rfl

/-- C10, as amended.  For every writer, world and request, `ServeHead` runs
to completion and produces a response, the empty request-target included;
`ServeGet` does so for every request whose request-target is not empty: there
`r.RequestURI[1:]` is in range. -/
theorem handlers_complete (h : MainHandler) (w : ResponseWriter) (env : World) (r : Request) :
    (h.ServeHead w env r).isSome = true ∧
      (r.RequestURI ≠ ascii "" → (h.ServeGet w env r).isSome = true) :=
  ⟨ServeHead_isSome h w env r, ServeGet_isSome h w env r⟩

/-- Witness for `handlers_complete`: `/a.png` in the sample world. -/
theorem handlers_complete_witness :
    (sampleHandler.ServeHead ResponseWriter.fresh sampleWorld
        ⟨ascii "HEAD", ascii "/a.png", [], []⟩).isSome = true ∧
      (sampleHandler.ServeGet ResponseWriter.fresh sampleWorld
        ⟨ascii "GET", ascii "/a.png", [], []⟩).isSome = true :=
  ⟨(handlers_complete sampleHandler ResponseWriter.fresh sampleWorld
      ⟨ascii "HEAD", ascii "/a.png", [], []⟩).1,
   (handlers_complete sampleHandler ResponseWriter.fresh sampleWorld
      ⟨ascii "GET", ascii "/a.png", [], []⟩).2 (by decide)⟩

/-- C10, as stated, fails for `ServeGet` on the empty request-target: neither
comparison matches, `r.RequestURI[1:]` is out of range and the method panics
without a response.  `ServeHead` answers the same request-target with 404. -/
theorem ServeGet_empty_target_counterexample :
    sampleHandler.ServeGet ResponseWriter.fresh sampleWorld ⟨ascii "GET", ascii "", [], []⟩
        = none ∧
      (sampleHandler.ServeHead ResponseWriter.fresh sampleWorld
        ⟨ascii "HEAD", ascii "", [], []⟩).map (fun o => o.1.StatusCode) = some (some 404) := by
  constructor
  · have h1 : ascii "" ≠ ascii "/" := by decide
    have h2 : ascii "" ≠ ascii "/_status" := by decide
    simp only [MainHandler.ServeGet, if_neg h1, if_neg h2]
    rfl
  · rfl

/-! ## The status counter -/

theorem ServeHead_lines (h : MainHandler) (w : ResponseWriter) (env : World) (r : Request)
    (w1 : ResponseWriter) (env1 : World) (hrun : h.ServeHead w env r = some (w1, env1)) :
    ∃ l, env1.log = env.log ++ l ∧ l.any LogLine.isAccess = false := by
  unfold MainHandler.ServeHead at hrun
  split_ifs at hrun with hr
  · simp only [Option.some.injEq, Prod.mk.injEq] at hrun
    exact ⟨[], by rw [← hrun.2]; simp, rfl⟩
  · cases hk : sliceFrom r.RequestURI 1 with
    | none => rw [hk] at hrun; simp at hrun
    | some key =>
      rw [hk] at hrun
      simp only [World.Stat, World.Now, World.Set] at hrun
      cases hst : env.statResult h.Bucket key with
      | error e =>
        rw [hst] at hrun
        simp only [Option.some.injEq, Prod.mk.injEq] at hrun
        exact ⟨[], by rw [← hrun.2]; simp, rfl⟩
      | ok info =>
        rw [hst] at hrun
        dsimp only at hrun
        cases hsf : env.setFault key (env.timeString (env.clock env.ticks)) with
        | none =>
          rw [hsf] at hrun
          simp only [Option.some.injEq, Prod.mk.injEq] at hrun
          exact ⟨[], by rw [← hrun.2]; simp, rfl⟩
        | some err =>
          rw [hsf] at hrun
          simp only [Option.some.injEq, Prod.mk.injEq] at hrun
          exact ⟨[LogLine.error (err.Error ++ ascii "\n")], by rw [← hrun.2]; simp [World.Printf],
            rfl⟩

/-- What the method that serves a `/_status` request returns: it does not
panic and prints no access line. -/
theorem served_status (h : MainHandler) (w : ResponseWriter) (env : World) (r : Request)
    (hU : r.RequestURI = ascii "/_status") :
    ∃ w1 env1 l,
      (if r.Method = ascii "HEAD" then h.ServeHead w env r
        else if r.Method = ascii "GET" then h.ServeGet w env r
        else some (h.ServeDefault w env r)) = some (w1, env1) ∧
      env1.log = env.log ++ l ∧ l.any LogLine.isAccess = false := by
  split_ifs with hH hG
  · cases hrun : h.ServeHead w env r with
    | none => have := ServeHead_isSome h w env r; rw [hrun] at this; simp at this
    | some o =>
      obtain ⟨w1, env1⟩ := o
      obtain ⟨l, h1, h2⟩ := ServeHead_lines h w env r w1 env1 hrun
      exact ⟨w1, env1, l, rfl, h1, h2⟩
  · have hne : ascii "/_status" ≠ ascii "/" := by decide
    simp only [MainHandler.ServeGet, hU, if_neg hne, if_true]
    exact ⟨_, _, [], rfl, by simp, rfl⟩
  · exact ⟨_, _, [], rfl, by simp, rfl⟩

/-- One `/_status` request: the counter is reset and the access line printed
when the counter exceeds 1000, else the counter is incremented and no access
line is printed. -/
theorem ServeHTTP_status (h : MainHandler) (env : World) (r : Request)
    (hU : r.RequestURI = ascii "/_status") :
    (h.after [(env, r)]).StatusCount
        = (if h.StatusCount > 1000 then 0 else h.StatusCount + 1) ∧
      emitsAccessLine h env r = decide (h.StatusCount > 1000) := by
  obtain ⟨w1, env1, l, hs, hl, hacc⟩ := served_status h ResponseWriter.fresh env r hU
  have hrun : h.ServeHTTP ResponseWriter.fresh env r
      = (if h.StatusCount > 1000 then
          some ({ h with StatusCount := 0 }, w1, env1.Printf (accessLine r w1))
        else some ({ h with StatusCount := h.StatusCount + 1 }, w1, env1)) := by
    simp only [MainHandler.ServeHTTP, NewResponseWriter, hs, if_pos hU]
  simp only [MainHandler.after, List.foldl, emitsAccessLine, hrun]
  by_cases hc : h.StatusCount > 1000
  · rw [if_pos hc, if_pos hc, decide_eq_true hc]
    refine ⟨rfl, ?_⟩
    simp [newLines, World.Printf, hl, accessLine, LogLine.isAccess]
  · rw [if_neg hc, if_neg hc, decide_eq_false hc]
    refine ⟨rfl, ?_⟩
    simp only [newLines, hl, List.drop_left]
    exact hacc


theorem after_cons (h : MainHandler) (x : World × Request) (reqs : List (World × Request)) :
    h.after (x :: reqs) = (h.after [x]).after reqs := rfl

/-- The counter after a run of `/_status` requests: it counts modulo 1002. -/
theorem after_status_count (reqs : List (World × Request)) :
    ∀ h : MainHandler, (∀ er ∈ reqs, er.2.RequestURI = ascii "/_status") →
      0 ≤ h.StatusCount → h.StatusCount ≤ 1001 →
      (h.after reqs).StatusCount = (h.StatusCount + reqs.length) % 1002 := by
  induction reqs with
  | nil =>
    intro h _ h0 h1
    simp only [MainHandler.after, List.foldl, List.length_nil]
    omega
  | cons x rest ih =>
    intro h hall h0 h1
    have hx : x.2.RequestURI = ascii "/_status" := hall x (List.mem_cons_self _ _)
    have hstep := (ServeHTTP_status h x.1 x.2 hx).1
    have hrest : ∀ er ∈ rest, er.2.RequestURI = ascii "/_status" :=
      fun er her => hall er (List.mem_cons_of_mem _ her)
    rw [after_cons]
    by_cases hc : h.StatusCount > 1000
    · rw [if_pos hc] at hstep
      rw [ih (h.after [x]) hrest (by rw [hstep]) (by rw [hstep]; omega), hstep]
      simp only [List.length_cons, Nat.cast_add, Nat.cast_one]
      omega
    · rw [if_neg hc] at hstep
      rw [ih (h.after [x]) hrest (by rw [hstep]; omega) (by rw [hstep]; omega), hstep]
      simp only [List.length_cons, Nat.cast_add, Nat.cast_one]
      omega

/-- C4, as amended.  From a counter of 0, over any sequence of requests whose
request-target is `/_status` (any methods, any worlds), the request number
`n + 1` prints an access line if and only if `n + 1` is a multiple of 1002,
and the counter is 0 after exactly those requests; after any request of the
sequence the counter is the number of requests served modulo 1002. -/
theorem status_sampling (h : MainHandler) (reqs : List (World × Request)) (n : Nat)
    (env : World) (r : Request)
    (h0 : h.StatusCount = 0)
    (hall : ∀ er ∈ reqs, er.2.RequestURI = ascii "/_status")
    (hn : reqs.get? n = some (env, r)) :
    (emitsAccessLine (h.after (reqs.take n)) env r = true ↔ 1002 ∣ n + 1) ∧
      ((h.after (reqs.take (n + 1))).StatusCount = 0 ↔ 1002 ∣ n + 1) ∧
      (h.after (reqs.take (n + 1))).StatusCount = ((n + 1 : Nat) : Int) % 1002 := by
  have hlt : n < reqs.length := by
    by_contra hge
    rw [List.get?_eq_none.mpr (by omega)] at hn
    simp at hn
  have hr : r.RequestURI = ascii "/_status" := hall (env, r) (List.get?_mem hn)
  have htake : ∀ k, ∀ er ∈ reqs.take k, er.2.RequestURI = ascii "/_status" :=
    fun k er her => hall er (List.mem_of_mem_take her)
  have hcn := after_status_count (reqs.take n) h (htake n) (by omega) (by omega)
  have hcn1 := after_status_count (reqs.take (n + 1)) h (htake (n + 1)) (by omega) (by omega)
  rw [h0, List.length_take, Nat.min_eq_left (by omega)] at hcn hcn1
  refine ⟨?_, ?_, ?_⟩
  · rw [(ServeHTTP_status _ env r hr).2, decide_eq_true_iff, hcn]
    omega
  · rw [hcn1]; omega
  · rw [hcn1]; simp


/-- Witness for `status_sampling`: the last of 1002 requests `GET /_status`. -/
theorem status_sampling_witness :
    (emitsAccessLine (sampleHandler.after
        ((List.replicate 1002 (sampleWorld, statusRequest)).take 1001))
        sampleWorld statusRequest = true ↔ 1002 ∣ 1001 + 1) ∧
      ((sampleHandler.after
        ((List.replicate 1002 (sampleWorld, statusRequest)).take (1001 + 1))).StatusCount = 0
          ↔ 1002 ∣ 1001 + 1) ∧
      (sampleHandler.after
        ((List.replicate 1002 (sampleWorld, statusRequest)).take (1001 + 1))).StatusCount
          = ((1001 + 1 : Nat) : Int) % 1002 :=
  status_sampling sampleHandler (List.replicate 1002 (sampleWorld, statusRequest)) 1001
    sampleWorld statusRequest rfl
    (fun er her => by rw [List.eq_of_mem_replicate her]; rfl)
    (by rw [List.get?_eq_getElem?, List.getElem?_replicate, if_pos (by omega)])

/-- C4, as stated, fails at the 1001st request.  After 1000 requests
`GET /_status` the counter is 1000, which does not exceed 1000: request number
1001 increments it and prints no access line, although 1001 is a multiple of
1001. -/
theorem status_sampling_1001_counterexample :
    ¬ (emitsAccessLine (sampleHandler.after
        ((List.replicate 1001 (sampleWorld, statusRequest)).take 1000))
        sampleWorld statusRequest = true ↔ 1001 ∣ 1000 + 1) := by
  have hall : ∀ er ∈ (List.replicate 1001 (sampleWorld, statusRequest)).take 1000,
      er.2.RequestURI = ascii "/_status" := fun er her => by
    rw [List.eq_of_mem_replicate (List.mem_of_mem_take her)]; rfl
  have hc := after_status_count _ sampleHandler hall (by decide) (by decide)
  have hlen : ((List.replicate 1001 (sampleWorld, statusRequest)).take 1000).length = 1000 := by
    rw [List.length_take, List.length_replicate]; rfl
  rw [hlen] at hc
  have hcount : (sampleHandler.after
      ((List.replicate 1001 (sampleWorld, statusRequest)).take 1000)).StatusCount = 1000 := by
    rw [hc]; rfl
  rw [(ServeHTTP_status _ sampleWorld statusRequest rfl).2, hcount]
  decide

/-- One call of `ServeHTTP` leaves the counter, resets it, or increments it
from a value of at most 1000. -/
theorem ServeHTTP_count (h h1 : MainHandler) (ow w1 : ResponseWriter) (env env1 : World)
    (r : Request) (hrun : h.ServeHTTP ow env r = some (h1, w1, env1)) :
    h1.StatusCount = h.StatusCount ∨ h1.StatusCount = 0 ∨
      (h.StatusCount ≤ 1000 ∧ h1.StatusCount = h.StatusCount + 1) := by
  simp only [MainHandler.ServeHTTP] at hrun
  split at hrun
  · simp at hrun
  · split_ifs at hrun with hU hc
    · simp only [Option.some.injEq, Prod.mk.injEq] at hrun
      right; left; rw [← hrun.1]
    · simp only [Option.some.injEq, Prod.mk.injEq] at hrun
      right; right; rw [← hrun.1]; exact ⟨by omega, rfl⟩
    · simp only [Option.some.injEq, Prod.mk.injEq] at hrun
      left; rw [← hrun.1]

theorem reachable_after (reqs : List (World × Request)) :
    ∀ h : MainHandler, Reachable h → Reachable (h.after reqs) := by
  induction reqs with
  | nil => intro h hr; exact hr
  | cons x rest ih =>
    intro h hr
    rw [after_cons]
    apply ih
    simp only [MainHandler.after, List.foldl]
    cases hrun : h.ServeHTTP ResponseWriter.fresh x.1 x.2 with
    | none => exact hr
    | some o =>
      obtain ⟨h2, w2, env2⟩ := o
      exact Reachable.step h h2 _ w2 x.1 env2 x.2 hr hrun

/-- C5, as amended.  In every state reachable from a counter of 0 by calls
of `ServeHTTP` (any methods, request-targets, writers and worlds), the counter
is in the range 0..1001. -/
theorem StatusCount_range (h : MainHandler) (hr : Reachable h) :
    0 ≤ h.StatusCount ∧ h.StatusCount ≤ 1001 := by
  induction hr with
  | init h h0 => rw [h0]; decide
  | step h h1 ow w1 env env1 r _ hrun ih =>
    rcases ServeHTTP_count h h1 ow w1 env env1 r hrun with hc | hc | ⟨hle, hc⟩ <;>
      rw [hc] <;> omega

/-- Witness for `StatusCount_range`: the state after one request
`GET /_status`. -/
theorem StatusCount_range_witness :
    0 ≤ (sampleHandler.after [(sampleWorld, statusRequest)]).StatusCount ∧
      (sampleHandler.after [(sampleWorld, statusRequest)]).StatusCount ≤ 1001 :=
  StatusCount_range _ (reachable_after _ _ (Reachable.init _ rfl))

/-- C5, as stated, fails: after 1001 requests `GET /_status` from a counter
of 0 the counter is 1001, above 1000. -/
theorem StatusCount_1001_counterexample :
    Reachable (sampleHandler.after (List.replicate 1001 (sampleWorld, statusRequest))) ∧
      ¬ (0 ≤ (sampleHandler.after
            (List.replicate 1001 (sampleWorld, statusRequest))).StatusCount ∧
          (sampleHandler.after
            (List.replicate 1001 (sampleWorld, statusRequest))).StatusCount ≤ 1000) := by
  have hall : ∀ er ∈ List.replicate 1001 (sampleWorld, statusRequest),
      er.2.RequestURI = ascii "/_status" := fun er her => by
    rw [List.eq_of_mem_replicate her]; rfl
  have hc := after_status_count _ sampleHandler hall (by decide) (by decide)
  rw [List.length_replicate] at hc
  have hcount : (sampleHandler.after
      (List.replicate 1001 (sampleWorld, statusRequest))).StatusCount = 1001 := by
    rw [hc]; rfl
  refine ⟨reachable_after _ _ (Reachable.init _ rfl), ?_⟩
  rw [hcount]; decide


/-! ## The deadline of the signed URL -/

theorem lookup_fixed (l : Location) (htx : l.tx = []) (s : Int) :
    l.lookup s = (l.zone0, alpha, omega) := by
  simp [Location.lookup, htx, lookupFrom]

/-- In a location with a fixed offset, `time.Date` at 00:00:00 of the civil
date of day number `z` is the instant `z * 86400 - offset`. -/
theorem Date_fixed (l : Location) (htx : l.tx = []) (z : Int) :
    (Date (civilFromDays z).1 (civilFromDays z).2.1 (civilFromDays z).2.2 0 0 0 0 l).Unix
      = z * 86400 - l.zone0 := by
  obtain ⟨hrt, hm1, hm12⟩ := daysFromCivil_civilFromDays z
  have hy : (civilFromDays z).1 + ((civilFromDays z).2.1 - 1) / 12 = (civilFromDays z).1 := by
    omega
  have hm : ((civilFromDays z).2.1 - 1) % 12 + 1 = (civilFromDays z).2.1 := by omega
  simp only [Date, hy, hm, hrt, lookup_fixed l htx, Time.Unix]
  split_ifs with h0 h1
  · simp only [lookup_fixed l htx]; omega
  · show z * 86400 + 0 * 3600 + 0 * 60 + 0 - l.zone0 = z * 86400 - l.zone0
    omega
  · simp only [ne_eq, not_not] at h0
    show z * 86400 + 0 * 3600 + 0 * 60 + 0 = z * 86400 - l.zone0
    omega

theorem deadline_fixed (T : Time) (htx : T.Location.tx = []) :
    MainHandler.ServeGet.deadline T
      = T.Unix - (T.Unix + T.Location.zone0) % 86400 + 86400 := by
  have hw : T.wall = T.Unix + T.Location.zone0 := by
    simp only [Time.wall, Time.Unix, Time.Location] at *
    rw [lookup_fixed T.loc htx]
  simp only [MainHandler.ServeGet.deadline, Time.Year, Time.Month, Time.Day,
    Date_fixed T.Location htx, hw]
  omega


theorem lookupFrom_start (tx : List (Int × Int)) :
    ∀ (off t s : Int), tx.Pairwise (fun a b => a.1 ≤ b.1) → (∀ e ∈ tx, t ≤ e.1) →
      t ≤ (lookupFrom off t tx s).2.1 := by
  induction tx with
  | nil => intro off t s _ _; simp [lookupFrom]
  | cons e rest ih =>
    intro off t s hp hge
    obtain ⟨t2, o2⟩ := e
    simp only [lookupFrom]
    split_ifs with hlt
    · simp
    · have h2 := List.pairwise_cons.mp hp
      have := ih o2 t2 s h2.2 (fun e he => h2.1 e he)
      have ht : t ≤ t2 := hge (t2, o2) (List.mem_cons_self _ _)
      exact le_trans ht this

/-- In an ordered table the zone found for an instant is found for every
instant between its start and its end. -/
theorem lookupFrom_stable (tx : List (Int × Int)) :
    ∀ (off0 start0 s s1 off start stop : Int), tx.Pairwise (fun a b => a.1 ≤ b.1) →
      lookupFrom off0 start0 tx s = (off, start, stop) → start ≤ s1 → s1 < stop →
      lookupFrom off0 start0 tx s1 = (off, start, stop) := by
  induction tx with
  | nil => intro off0 start0 s s1 off start stop _ h _ _; simpa [lookupFrom] using h
  | cons e rest ih =>
    intro off0 start0 s s1 off start stop hp h hs1 hs2
    obtain ⟨t2, o2⟩ := e
    have h2 := List.pairwise_cons.mp hp
    simp only [lookupFrom] at h ⊢
    split_ifs at h with hlt
    · simp only [Prod.mk.injEq] at h
      obtain ⟨rfl, rfl, rfl⟩ := h
      rw [if_pos hs2]
    · have hst := lookupFrom_start rest o2 t2 s h2.2 (fun e he => h2.1 e he)
      rw [h] at hst
      have hge : ¬ (s1 < t2) := by
        have : t2 ≤ s1 := le_trans hst hs1
        omega
      rw [if_neg hge]
      exact ih o2 t2 s s1 off start stop h2.2 h hs1 hs2

/-- `time.Date` at 00:00:00 of the civil date of day number `z`, when the
wall-clock reading taken as an instant and the instant it stands for both
fall in one zone of the location. -/
theorem Date_in_zone (l : Location) (hord : l.ordered) (s off start stop z : Int)
    (hz : l.lookup s = (off, start, stop))
    (h1 : start ≤ z * 86400) (h2 : z * 86400 < stop)
    (h3 : start ≤ z * 86400 - off) (h4 : z * 86400 - off < stop) :
    (Date (civilFromDays z).1 (civilFromDays z).2.1 (civilFromDays z).2.2 0 0 0 0 l).Unix
      = z * 86400 - off := by
  obtain ⟨hrt, hm1, hm12⟩ := daysFromCivil_civilFromDays z
  have hy : (civilFromDays z).1 + ((civilFromDays z).2.1 - 1) / 12 = (civilFromDays z).1 := by
    omega
  have hm : ((civilFromDays z).2.1 - 1) % 12 + 1 = (civilFromDays z).2.1 := by omega
  have hunix : z * 86400 + 0 * 3600 + 0 * 60 + 0 = z * 86400 := by omega
  have hl : l.lookup (z * 86400) = (off, start, stop) :=
    lookupFrom_stable l.tx l.zone0 alpha s (z * 86400) off start stop hord hz h1 h2
  simp only [Date, hy, hm, hrt, hunix, hl, Time.Unix]
  split_ifs with h0 h5
  · omega
  · rfl
  · simp only [ne_eq, not_not] at h0
    show z * 86400 = z * 86400 - off
    omega

/-- The deadline when the zone in force at `T` holds both the local midnight
of `T` and the reading of that midnight taken as an instant: it is the end
of the 86400 seconds that began at local midnight, so it lies after `T`. -/
theorem deadline_in_zone (T : Time) (hord : T.Location.ordered) (off start stop : Int)
    (hz : T.Location.lookup T.Unix = (off, start, stop)) (hstop : T.Unix < stop)
    (h1 : start ≤ (T.Unix + off) / 86400 * 86400)
    (h2 : (T.Unix + off) / 86400 * 86400 < stop)
    (h3 : start ≤ (T.Unix + off) / 86400 * 86400 - off) :
    MainHandler.ServeGet.deadline T = T.Unix - (T.Unix + off) % 86400 + 86400 ∧
      T.Unix < MainHandler.ServeGet.deadline T ∧
      MainHandler.ServeGet.deadline T ≤ T.Unix + 86400 := by
  have hw : T.wall = T.Unix + off := by
    simp only [Time.wall, Time.Unix, Time.Location] at *
    rw [hz]
  have hd : MainHandler.ServeGet.deadline T = T.Unix - (T.Unix + off) % 86400 + 86400 := by
    simp only [MainHandler.ServeGet.deadline, Time.Year, Time.Month, Time.Day, hw]
    rw [Date_in_zone T.Location hord T.Unix off start stop _ hz h1 h2 h3 (by omega)]
    omega
  refine ⟨hd, ?_, ?_⟩ <;> rw [hd] <;> omega

/-- The day after the clocks were set back the deadline is in the future
again: at 12:00 on 2026-11-02 in New York it is the next local midnight. -/
theorem deadline_ordinaryNoon :
    MainHandler.ServeGet.deadline ordinaryNoon = 1793682000 ∧
      ordinaryNoon.Unix < MainHandler.ServeGet.deadline ordinaryNoon :=
  ⟨by decide, (deadline_in_zone ordinaryNoon (by unfold Location.ordered; decide)
    (-18000) 1793512800 omega (by decide) (by decide) (by decide) (by decide)
    (by decide)).2.1⟩

/-- The calls made by lines 121-133 of `ServeGet`. -/
theorem refresh_calls (h : MainHandler) (w : ResponseWriter) (env : World) (K : GoString) :
    (MainHandler.ServeGet.refresh h w env K).2.calls
        = env.calls ++ [Call.Set K (env.timeString (env.clock env.ticks)) 0] ∨
      (MainHandler.ServeGet.refresh h w env K).2.calls
        = env.calls ++ [Call.Set K (env.timeString (env.clock env.ticks)) 0,
            Call.MakePrivateURL h.Domain K
              (MainHandler.ServeGet.deadline (env.clock (env.ticks + 1)))] := by
  cases hsf : env.setFault K (env.timeString (env.clock env.ticks)) with
  | some err =>
    left
    simp [MainHandler.ServeGet.refresh, World.Now, World.Set, hsf]
  | none =>
    right
    simp [MainHandler.ServeGet.refresh, World.Now, World.Set, hsf, World.MakePrivateURL]

/-- Every signing request made by `ServeGet` is for the domain of the handler
and the key of the request, with the deadline computed from the second clock
reading of the request. -/
theorem ServeGet_signing (h : MainHandler) (w : ResponseWriter) (env : World) (r : Request)
    (w1 : ResponseWriter) (env1 : World) (hrun : h.ServeGet w env r = some (w1, env1))
    (d k : GoString) (dl : Int) (hmem : Call.MakePrivateURL d k dl ∈ newCalls env env1) :
    d = h.Domain ∧ sliceFrom r.RequestURI 1 = some k ∧
      dl = MainHandler.ServeGet.deadline (env.clock (env.ticks + 1)) := by
  unfold MainHandler.ServeGet at hrun
  split_ifs at hrun with hr hs
  · simp only [Option.some.injEq, Prod.mk.injEq] at hrun
    rw [← hrun.2] at hmem; simp [newCalls] at hmem
  · simp only [Option.some.injEq, Prod.mk.injEq] at hrun
    rw [← hrun.2] at hmem; simp [newCalls] at hmem
  · cases hk : sliceFrom r.RequestURI 1 with
    | none => rw [hk] at hrun; simp at hrun
    | some key =>
      rw [hk] at hrun
      simp only [World.Get, World.Stat] at hrun
      cases hf : env.getFault key with
      | some msg =>
        rw [hf] at hrun
        simp only [Option.some.injEq, Prod.mk.injEq] at hrun
        rw [← hrun.2] at hmem; simp [newCalls] at hmem
      | none =>
        rw [hf] at hrun
        cases hs : env.store key with
        | none =>
          rw [hs] at hrun
          dsimp only at hrun
          cases hst : env.statResult h.Bucket key with
          | error e =>
            rw [hst] at hrun
            simp only [Option.some.injEq, Prod.mk.injEq] at hrun
            rw [← hrun.2] at hmem; simp [newCalls] at hmem
          | ok info =>
            rw [hst] at hrun
            simp only [Option.some.injEq] at hrun
            have hc := refresh_calls h w
              { env with calls := env.calls ++ [Call.Get key] ++ [Call.Stat h.Bucket key] } key
            rw [hrun] at hc
            rcases hc with hc | hc
            · replace hc : env1.calls = _ := hc
              simp only [newCalls, hc] at hmem
              simp at hmem
            · replace hc : env1.calls = _ := hc
              simp only [newCalls, hc] at hmem
              simp at hmem
              simpa [eq_comm] using hmem
        | some v0 =>
          rw [hs] at hrun
          simp only [Option.some.injEq] at hrun
          have hc := refresh_calls h w { env with calls := env.calls ++ [Call.Get key] } key
          rw [hrun] at hc
          rcases hc with hc | hc
          · replace hc : env1.calls = _ := hc
            simp only [newCalls, hc] at hmem
            simp at hmem
          · replace hc : env1.calls = _ := hc
            simp only [newCalls, hc] at hmem
            simp at hmem
            simpa [eq_comm] using hmem


/-- C6, at the failing input.  The clock reads 23:30 on 2026-11-01 in New
York, the day on which the clocks were set back at 02:00, so that the local
day has 25 hours.  The local date is November 1, local midnight was at Unix
time 1793505600 (04:00 UTC), and the deadline is 1793592000, which is 23:00
local time: 1800 seconds before the request.  `ServeGet` signs with that
deadline and redirects to the URL that carries it. -/
theorem deadline_before_request :
    (lateRequest.Year, lateRequest.Month, lateRequest.Day) = (2026, 11, 1) ∧
    (Date 2026 11 1 0 0 0 0 newYork).Unix = 1793505600 ∧
    MainHandler.ServeGet.deadline lateRequest = 1793592000 ∧
    ¬ (MainHandler.ServeGet.deadline lateRequest ≥ lateRequest.Unix) ∧
    (∃ w1 env1, sampleHandler.ServeGet ResponseWriter.fresh sampleWorld
          ⟨ascii "GET", ascii "/a.png", [], []⟩ = some (w1, env1) ∧
        w1.StatusCode = some 307 ∧
        w1.redirect = some (ascii "http://cdn.example.com/a.png?e=1793592000") ∧
        newCalls sampleWorld env1 = [Call.Get (ascii "a.png"),
          Call.Stat (ascii "pics") (ascii "a.png"), Call.Set (ascii "a.png") (ascii "now") 0,
          Call.MakePrivateURL (ascii "cdn.example.com") (ascii "a.png") 1793592000] ∧
        sampleWorld.clock (sampleWorld.ticks + 1) = lateRequest) := by
  refine ⟨by decide, by decide, by decide, by decide, _, _, rfl, rfl, ?_, ?_, rfl⟩
  · decide
  · decide

end Imagepool
